import Mathlib

/-!
Shallow embedding of the conversation session manager and the history
reconstructor of the algerie-poste-dashboard frontends.

Two chat implementations are embedded:

* structure ChatState with handleFileChange, handleSendMessageSync,
  resolveSendOk, resolveSendErr, flattenHistory, resolveLoadOk and
  resumeExplicit models the ChatPage component of src/unnamed/part_001
  (lines 186 to 561).
* structure SBState with sbHandleSubmitSync, sbResolveConvId and
  sbHandleSubmitRest models the ChatPage component embedded in
  src/projet/projet/project/src/components/layout/Sidebar.tsx.

fetchConversationsCore models the grouping and sorting core of
fetchConversations in the HistoryPage component of src/unnamed/part_004.

Modelling conventions: timestamps are naturals (the sources wrap them in
Date objects whose numeric time value is what the code compares); message
ids built from Date.now() and Math.random() are modelled from the now
parameter alone, since no verified property depends on id distinctness;
React useState setters are modelled as record updates, and a functional
setter of the form setMessages(prev => ...) reads the state that is
current at resolution time, which is what makes the stale-response
behaviour observable; toasts, scrolling and router navigation are
presentation effects outside the model.
-/

inductive Role where
  | user
  | assistant
deriving DecidableEq

/-- JavaScript String.prototype.trim: drop whitespace from both ends.
Defined over the character list so that it evaluates inside the kernel. -/
def jsTrim (s : String) : String :=
  ⟨((s.data.dropWhile Char.isWhitespace).reverse.dropWhile Char.isWhitespace).reverse⟩

/-- Message shape shared by both chat components. -/
structure Message where
  id : String
  role : Role
  content : String
  timestamp : Nat
deriving DecidableEq

/-- Session state of the ChatPage component (part_001): the selectedFile,
selectedFileName, messages, input, isLoading, conversationId and
embeddingProvider useState hooks. -/
structure ChatState where
  selectedFile : Option String
  selectedFileName : String
  messages : List Message
  input : String
  isLoading : Bool
  conversationId : Option String
  embeddingProvider : String
deriving DecidableEq

/-- handleFileChange (part_001, lines 347 to 354): selects the new file and
resets the conversation binding and the transcript. The source clears
unconditionally, whether or not the file id changed. -/
def handleFileChange (s : ChatState) (newFileId : String) : ChatState :=
  { s with selectedFile := some newFileId, conversationId := none, messages := [] }

/-- Request body sent by sendChatMessage (part_001, lines 371 to 376). -/
structure ChatRequest where
  question : String
  file_id : String
  conversation_id : String
  embedding_provider : String
deriving DecidableEq

/-- Response fields consumed from sendChatMessage (part_001, lines 378 to
390). A none embedding_provider models an absent or falsy field. -/
structure ChatResponse where
  response : String
  embedding_provider : Option String
deriving DecidableEq

/-- Synchronous part of handleSendMessage (part_001, lines 356 to 368): the
guard rejects when the trimmed input is empty, no file is selected or no
conversation id is held; otherwise the optimistic user message is
appended, the input cleared, isLoading set, and the request that the
source then issues is returned. -/
def handleSendMessageSync (s : ChatState) (now : Nat) : ChatState × Option ChatRequest :=
  match s.selectedFile, s.conversationId with
  | some fid, some cid =>
      if jsTrim s.input = "" then (s, none)
      else
        ({ s with
            messages := s.messages ++ [(⟨toString now, Role.user, s.input, now⟩ : Message)],
            input := "",
            isLoading := true },
          some ⟨s.input, fid, cid, s.embeddingProvider⟩)
  | _, _ => (s, none)

/-- Resolution of a successful sendChatMessage (part_001, lines 378 to
395): appends the assistant message with a functional setter, adopts the
server embedding provider when present and clears isLoading. -/
def resolveSendOk (s : ChatState) (resp : ChatResponse) (now : Nat) : ChatState :=
  let s1 := { s with
    messages := s.messages ++
      [(⟨"response-" ++ toString now, Role.assistant, resp.response, now⟩ : Message)] }
  let s2 :=
    match resp.embedding_provider with
    | some p => { s1 with embeddingProvider := p }
    | none => s1
  { s2 with isLoading := false }

/-- Resolution of a failed sendChatMessage (part_001, lines 391 to 395):
the catch branch only shows a toast, outside the model, and the finally
branch clears isLoading; the transcript is not changed. -/
def resolveSendErr (s : ChatState) : ChatState :=
  { s with isLoading := false }

/-- Record shape returned by getConversationMessages and consumed by
loadExistingConversation (part_001, lines 288 to 302). -/
structure ChatHistoryRecord where
  question : String
  response : String
  timestamp : Nat
deriving DecidableEq

/-- Flattening loop of loadExistingConversation (part_001, lines 286 to
302): each record becomes a user message followed by an assistant message,
both carrying the record timestamp. -/
def flattenHistory (now : Nat) : List ChatHistoryRecord → List Message
  | [] => []
  | item :: rest =>
      ⟨"user-" ++ toString now, Role.user, item.question, item.timestamp⟩ ::
        ⟨"assistant-" ++ toString now, Role.assistant, item.response, item.timestamp⟩ ::
        flattenHistory now rest

/-- Synthesized welcome back message (part_001, lines 308 to 315); it is
only placed in local state, never sent to the backend. -/
def welcomeBackMessage (fileName : String) (now : Nat) : Message :=
  ⟨"welcome-back", Role.assistant,
    "Welcome back to our conversation about \"" ++ fileName ++
      "\". How can I help you?",
    now⟩

/-- Success path of loadExistingConversation (part_001, lines 282 to 323):
the flattened history replaces the transcript, an empty result is replaced
by the single welcome back message, and isLoading is cleared. -/
def resolveLoadOk (s : ChatState) (history : List ChatHistoryRecord) (now : Nat) :
    ChatState :=
  let loadedMessages := flattenHistory now history
  let s1 := { s with messages := loadedMessages }
  let s2 :=
    if loadedMessages.length = 0 then
      { s1 with messages := [welcomeBackMessage s.selectedFileName now] }
    else s1
  { s2 with isLoading := false }

/-- Deep link resume (part_001, lines 229 to 236 together with 278 to 323):
the effect sets conversationId from the query parameter and then
loadExistingConversation runs, returning early when no file is selected. -/
def resumeExplicit (s : ChatState) (convId : String) (history : List ChatHistoryRecord)
    (now : Nat) : ChatState :=
  let s0 := { s with conversationId := some convId }
  match s0.selectedFile with
  | none => s0
  | some _ => resolveLoadOk { s0 with isLoading := true } history now

/-- UI events a user can fire between backend resolutions: a file change or
a send attempt (only its synchronous part, since no resolution has
happened yet). -/
inductive UserEvent where
  | fileChange (fid : String)
  | sendAttempt (now : Nat)
deriving DecidableEq

def userStep (s : ChatState) : UserEvent → ChatState
  | .fileChange fid => handleFileChange s fid
  | .sendAttempt now => (handleSendMessageSync s now).1

def runUser (s : ChatState) : List UserEvent → ChatState
  | [] => s
  | e :: es => runUser (userStep s e) es

/-- Session state of the ChatPage component embedded in Sidebar.tsx: the
message, messages, isLoading and currentConversationId useState hooks. The
conversations list only feeds the picker and is outside the model. -/
structure SBState where
  message : String
  messages : List Message
  isLoading : Bool
  currentConversationId : Option String
deriving DecidableEq

/-- Request body sent to the chat endpoint by handleSubmit in
Sidebar.tsx. -/
structure SBChatRequest where
  question : String
  conversation_id : String
deriving DecidableEq

/-- Fixed apology text injected by the catch branch of handleSubmit. -/
def sbErrorText : String := "Sorry, I encountered an error. Please try again."

/-- Synchronous part of handleSubmit (Sidebar.tsx): guard on empty trimmed
message or a pending send, optimistic user message, isLoading set, input
cleared; returns the captured question used by the rest of the handler. -/
def sbHandleSubmitSync (s : SBState) (now : Nat) : SBState × Option String :=
  if jsTrim s.message = "" ∨ s.isLoading = true then (s, none)
  else
    ({ s with
        messages := s.messages ++ [(⟨toString now, Role.user, s.message, now⟩ : Message)],
        isLoading := true,
        message := "" },
      some s.message)

/-- Conversation id resolution inside handleSubmit: reuse the held id,
otherwise consume the start-conversation reply; none models a non-2xx
start response, which throws into the catch branch. -/
def sbResolveConvId (s : SBState) (startResult : Option String) :
    Option (SBState × String) :=
  match s.currentConversationId with
  | some cid => some (s, cid)
  | none =>
      match startResult with
      | some cid => some ({ s with currentConversationId := some cid }, cid)
      | none => none

/-- Catch branch of handleSubmit: appends the apology assistant message and
the finally branch clears isLoading. The optimistic user message is left
in place. -/
def sbCatch (s : SBState) (now : Nat) : SBState :=
  { s with
      messages := s.messages ++
        [(⟨toString now ++ "2", Role.assistant, sbErrorText, now⟩ : Message)],
      isLoading := false }

/-- Remainder of handleSubmit after the synchronous part, parametrised by
the backend outcomes: startResult is the start-conversation reply, used
only when no conversation id is held, and sendResult is the chat reply,
none modelling failure. Returns the new state together with the request
issued to the chat endpoint, if one was issued. The conversations list
refresh on the new-conversation path only touches picker data and is
outside the model. -/
def sbHandleSubmitRest (s : SBState) (q : String) (startResult : Option String)
    (sendResult : Option String) (now : Nat) : SBState × Option SBChatRequest :=
  match sbResolveConvId s startResult with
  | none => (sbCatch s now, none)
  | some (s1, cid) =>
      match sendResult with
      | some resp =>
          ({ s1 with
              messages := s1.messages ++
                [(⟨toString now ++ "1", Role.assistant, resp, now⟩ : Message)],
              isLoading := false },
            some ⟨q, cid⟩)
      | none => (sbCatch s1 now, some ⟨q, cid⟩)

/-- Flat history record shape of HistoryPage (part_004, lines 10 to 16). -/
structure HistoryItem where
  question : String
  response : String
  timestamp : Nat
  conversation_id : String
  file_id : String
deriving DecidableEq

/-- Conversation header returned by getUserConversations (part_004). -/
structure ConversationHeader where
  conversation_id : String
  started_at : Nat
deriving DecidableEq

/-- Grouped conversation object built by fetchConversations (part_004,
lines 18 to 23). -/
structure Conversation where
  conversation_id : String
  started_at : Nat
  messages : List HistoryItem
  expanded : Bool
deriving DecidableEq

/-- One step of the grouping forEach (part_004, lines 50 to 55): push the
item onto its conversation bucket, creating the bucket on first
appearance. -/
def addToGroup : List (String × List HistoryItem) → HistoryItem →
    List (String × List HistoryItem)
  | [], it => [(it.conversation_id, [it])]
  | (k, vs) :: rest, it =>
      if k = it.conversation_id then (k, vs ++ [it]) :: rest
      else (k, vs) :: addToGroup rest it

/-- The conversationsMap record built by the forEach over historyData. -/
def groupHistory (records : List HistoryItem) : List (String × List HistoryItem) :=
  records.foldl addToGroup []

/-- Indexing conversationsMap with the default empty list (part_004,
line 61). -/
def lookupGroup (m : List (String × List HistoryItem)) (cid : String) :
    List HistoryItem :=
  match m.find? (fun p => p.1 == cid) with
  | some p => p.2
  | none => []

/-- Stable insertion into a list already sorted by started_at descending:
the element enters after every element with a greater or equal key. This
models the stable Array sort with comparator on started_at time values
(part_004, line 66), for elements arriving in input order. -/
def insertDesc (x : Conversation) : List Conversation → List Conversation
  | [] => [x]
  | y :: ys =>
      if y.started_at < x.started_at then x :: y :: ys
      else y :: insertDesc x ys

def sortDescAux : List Conversation → List Conversation → List Conversation
  | [], acc => acc
  | x :: xs, acc => sortDescAux xs (insertDesc x acc)

/-- Stable sort by started_at descending. -/
def sortByStartedAtDesc (l : List Conversation) : List Conversation :=
  sortDescAux l []

/-- Core of fetchConversations (part_004, lines 48 to 68): group the
history records by conversation_id, give each header its bucket, empty
when absent, and sort by started_at descending. Total by construction: an
orphan record simply ends up in a bucket no header reads. -/
def fetchConversationsCore (headers : List ConversationHeader)
    (records : List HistoryItem) : List Conversation :=
  let conversationsMap := groupHistory records
  let conversationsWithMessages := headers.map fun conv =>
    (⟨conv.conversation_id, conv.started_at,
      lookupGroup conversationsMap conv.conversation_id, false⟩ : Conversation)
  sortByStartedAtDesc conversationsWithMessages

/-- Derived view of one grouped conversation: its records are exactly the
input records with matching conversation_id, in input order. -/
def mkConv (records : List HistoryItem) (c : ConversationHeader) : Conversation :=
  ⟨c.conversation_id, c.started_at,
    records.filter (fun r => r.conversation_id == c.conversation_id), false⟩

/-- Sample states used to instantiate theorems with hypotheses. -/
def sampleChat : ChatState :=
  ⟨some "f1", "data.csv", [], "hi", false, some "c1", "local"⟩

def sampleChatNoConv : ChatState :=
  ⟨some "f1", "data.csv", [], "hi", false, none, "local"⟩

def sampleSB : SBState := ⟨"hello", [], false, some "c9"⟩

def sampleSBNoConv : SBState := ⟨"hello", [], false, none⟩

def sampleRecord1 : HistoryItem := ⟨"q1", "a1", 10, "c1", "f"⟩

def sampleRecord2 : HistoryItem := ⟨"q2", "a2", 11, "c2", "f"⟩

def sampleRecord3 : HistoryItem := ⟨"q3", "a3", 12, "c2", "f"⟩

def sampleOrphan : HistoryItem := ⟨"q", "a", 5, "cX", "f"⟩

def sampleHistoryRecord : ChatHistoryRecord := ⟨"q", "a", 5⟩

theorem jsTrim_empty : jsTrim "" = "" := by decide

theorem lookupGroup_nil (cid : String) : lookupGroup [] cid = [] := rfl

theorem beqFalseOfNe {α : Type} [BEq α] [LawfulBEq α] {a b : α} (h : ¬a = b) :
    (a == b) = false := by
  cases hb : a == b
  · rfl
  · exact absurd (eq_of_beq hb) h

theorem lookupGroup_cons_eq (k : String) (vs : List HistoryItem)
    (tail : List (String × List HistoryItem)) :
    lookupGroup ((k, vs) :: tail) k = vs := by
  simp [lookupGroup, List.find?]

theorem lookupGroup_cons_ne (k : String) (vs : List HistoryItem)
    (tail : List (String × List HistoryItem)) (cid : String) (h : ¬k = cid) :
    lookupGroup ((k, vs) :: tail) cid = lookupGroup tail cid := by
  simp [lookupGroup, List.find?, beqFalseOfNe h]

theorem lookupGroup_addToGroup (m : List (String × List HistoryItem))
    (it : HistoryItem) (cid : String) :
    lookupGroup (addToGroup m it) cid =
      if cid = it.conversation_id then lookupGroup m cid ++ [it]
      else lookupGroup m cid := by
  induction m with
  | nil =>
      by_cases h : cid = it.conversation_id
      · subst h
        simp [addToGroup, lookupGroup_cons_eq, lookupGroup_nil]
      · simp only [addToGroup, if_neg h, lookupGroup_nil]
        rw [lookupGroup_cons_ne _ _ _ _ (fun hh => h hh.symm), lookupGroup_nil]
  | cons p rest ih =>
      obtain ⟨k, vs⟩ := p
      by_cases hk : k = it.conversation_id
      · by_cases hc : cid = it.conversation_id
        · simp only [addToGroup, if_pos hk, if_pos hc]
          rw [hc, ← hk, lookupGroup_cons_eq, lookupGroup_cons_eq]
        · have hne : ¬k = cid := fun hh => hc (by rw [← hh, hk])
          simp only [addToGroup, if_pos hk, if_neg hc]
          rw [lookupGroup_cons_ne _ _ _ _ hne, lookupGroup_cons_ne _ _ _ _ hne]
      · by_cases hkc : k = cid
        · subst hkc
          simp only [addToGroup, if_neg hk]
          rw [lookupGroup_cons_eq, lookupGroup_cons_eq]
        · simp only [addToGroup, if_neg hk]
          rw [lookupGroup_cons_ne _ _ _ _ hkc, lookupGroup_cons_ne _ _ _ _ hkc, ih]

theorem lookupGroup_foldl (rs : List HistoryItem)
    (m : List (String × List HistoryItem)) (cid : String) :
    lookupGroup (rs.foldl addToGroup m) cid =
      lookupGroup m cid ++ rs.filter (fun r => r.conversation_id == cid) := by
  induction rs generalizing m with
  | nil => simp
  | cons r rs ih =>
      simp only [List.foldl_cons, ih, lookupGroup_addToGroup, List.filter_cons]
      by_cases h : cid = r.conversation_id
      · simp [h, List.append_assoc]
      · simp [h, beqFalseOfNe (fun hh => h hh.symm)]

theorem lookupGroup_groupHistory (records : List HistoryItem) (cid : String) :
    lookupGroup (groupHistory records) cid =
      records.filter (fun r => r.conversation_id == cid) := by
  simpa [lookupGroup_nil] using lookupGroup_foldl records [] cid

theorem insertDesc_perm (x : Conversation) (l : List Conversation) :
    (insertDesc x l).Perm (x :: l) := by
  induction l with
  | nil => simp [insertDesc]
  | cons y ys ih =>
      simp only [insertDesc]
      split
      · exact List.Perm.refl _
      · exact (ih.cons y).trans (List.Perm.swap x y ys)

theorem sortDescAux_perm (l acc : List Conversation) :
    (sortDescAux l acc).Perm (l ++ acc) := by
  induction l generalizing acc with
  | nil => simp [sortDescAux]
  | cons x xs ih =>
      simp only [sortDescAux]
      refine (ih _).trans ?_
      refine (List.Perm.append_left xs (insertDesc_perm x acc)).trans ?_
      exact List.perm_middle

theorem sortByStartedAtDesc_perm (l : List Conversation) :
    (sortByStartedAtDesc l).Perm l := by
  simpa using sortDescAux_perm l []

theorem mem_insertDesc {x z : Conversation} {l : List Conversation}
    (h : z ∈ insertDesc x l) : z = x ∨ z ∈ l := by
  induction l with
  | nil => simpa [insertDesc] using h
  | cons y ys ih =>
      simp only [insertDesc] at h
      split at h
      · simpa [or_assoc] using (List.mem_cons.mp h)
      · rcases List.mem_cons.mp h with h | h
        · exact Or.inr (h ▸ List.mem_cons_self y ys)
        · rcases ih h with h | h
          · exact Or.inl h
          · exact Or.inr (List.mem_cons_of_mem y h)

theorem pairwise_insertDesc (x : Conversation) (l : List Conversation)
    (h : l.Pairwise (fun a b => b.started_at ≤ a.started_at)) :
    (insertDesc x l).Pairwise (fun a b => b.started_at ≤ a.started_at) := by
  induction l with
  | nil => simp [insertDesc]
  | cons y ys ih =>
      rcases List.pairwise_cons.mp h with ⟨hy, hys⟩
      simp only [insertDesc]
      split
      · rename_i hlt
        refine List.pairwise_cons.mpr ⟨?_, h⟩
        intro z hz
        rcases List.mem_cons.mp hz with rfl | hz
        · exact Nat.le_of_lt hlt
        · exact Nat.le_of_lt (Nat.lt_of_le_of_lt (hy z hz) hlt)
      · rename_i hnlt
        refine List.pairwise_cons.mpr ⟨?_, ih hys⟩
        intro z hz
        rcases mem_insertDesc hz with rfl | hz
        · exact Nat.le_of_not_lt hnlt
        · exact hy z hz

theorem sortDescAux_pairwise (l acc : List Conversation)
    (h : acc.Pairwise (fun a b => b.started_at ≤ a.started_at)) :
    (sortDescAux l acc).Pairwise (fun a b => b.started_at ≤ a.started_at) := by
  induction l generalizing acc with
  | nil => simpa [sortDescAux] using h
  | cons x xs ih =>
      simp only [sortDescAux]
      exact ih _ (pairwise_insertDesc x acc h)

theorem filter_insertDesc (x : Conversation) (l : List Conversation) (t : Nat)
    (h : l.Pairwise (fun a b => b.started_at ≤ a.started_at)) :
    (insertDesc x l).filter (fun c => c.started_at == t) =
      if x.started_at = t then
        l.filter (fun c => c.started_at == t) ++ [x]
      else l.filter (fun c => c.started_at == t) := by
  induction l with
  | nil => by_cases hx : x.started_at = t <;> simp [insertDesc, hx]
  | cons y ys ih =>
      rcases List.pairwise_cons.mp h with ⟨hy, hys⟩
      simp only [insertDesc]
      split
      · rename_i hlt
        by_cases hx : x.started_at = t
        · have hnone : (y :: ys).filter (fun c => c.started_at == t) = [] := by
            rw [List.filter_eq_nil_iff]
            intro z hz
            have hzlt : z.started_at < x.started_at := by
              rcases List.mem_cons.mp hz with rfl | hz
              · exact hlt
              · exact Nat.lt_of_le_of_lt (hy z hz) hlt
            simp only [beq_iff_eq]
            omega
          simp [List.filter_cons, hx, hnone]
        · simp [List.filter_cons, hx]
      · rename_i hnlt
        by_cases hyt : y.started_at = t <;> by_cases hx : x.started_at = t <;>
          simp [List.filter_cons, hyt, hx, ih hys]

theorem filter_sortDescAux (l acc : List Conversation) (t : Nat)
    (h : acc.Pairwise (fun a b => b.started_at ≤ a.started_at)) :
    (sortDescAux l acc).filter (fun c => c.started_at == t) =
      acc.filter (fun c => c.started_at == t) ++
        l.filter (fun c => c.started_at == t) := by
  induction l generalizing acc with
  | nil => simp [sortDescAux]
  | cons x xs ih =>
      simp only [sortDescAux]
      rw [ih _ (pairwise_insertDesc x acc h), filter_insertDesc x acc t h]
      by_cases hx : x.started_at = t
      · simp [hx, List.filter_cons]
      · simp [hx, List.filter_cons]

theorem filter_sortByStartedAtDesc (l : List Conversation) (t : Nat) :
    (sortByStartedAtDesc l).filter (fun c => c.started_at == t) =
      l.filter (fun c => c.started_at == t) := by
  simpa [sortByStartedAtDesc] using filter_sortDescAux l [] t (by simp)

theorem fetchConversationsCore_eq_sort (headers : List ConversationHeader)
    (records : List HistoryItem) :
    fetchConversationsCore headers records =
      sortByStartedAtDesc (headers.map (mkConv records)) := by
  have hfun : (fun conv : ConversationHeader =>
      (⟨conv.conversation_id, conv.started_at,
        lookupGroup (groupHistory records) conv.conversation_id, false⟩ : Conversation))
      = mkConv records := by
    funext conv
    simp [mkConv, lookupGroup_groupHistory]
  simp [fetchConversationsCore, hfun]

theorem flattenHistory_length (now : Nat) (history : List ChatHistoryRecord) :
    (flattenHistory now history).length = 2 * history.length := by
  induction history with
  | nil => simp [flattenHistory]
  | cons a rest ih => simp [flattenHistory, ih]; omega

theorem flattenHistory_ne_nil (now : Nat) (history : List ChatHistoryRecord)
    (h : history ≠ []) : flattenHistory now history ≠ [] := by
  cases history with
  | nil => exact absurd rfl h
  | cons a rest => simp [flattenHistory]

theorem flattenHistory_get (now : Nat) (history : List ChatHistoryRecord) :
    ∀ i qr, history[i]? = some qr →
      (flattenHistory now history)[2 * i]?
        = some ⟨"user-" ++ toString now, Role.user, qr.question, qr.timestamp⟩
      ∧ (flattenHistory now history)[2 * i + 1]?
        = some ⟨"assistant-" ++ toString now, Role.assistant, qr.response,
            qr.timestamp⟩ := by
  induction history with
  | nil => intro i qr h; simp at h
  | cons a rest ih =>
      intro i qr h
      cases i with
      | zero =>
          simp only [List.getElem?_cons_zero, Option.some.injEq] at h
          subst h
          refine ⟨?_, ?_⟩ <;> simp [flattenHistory]
      | succ j =>
          have h' : rest[j]? = some qr := by simpa using h
          have hj := ih j qr h'
          have e1 : 2 * (j + 1) = 2 * j + 1 + 1 := by omega
          have e2 : 2 * (j + 1) + 1 = (2 * j + 1) + 1 + 1 := by omega
          constructor
          · rw [e1]
            simpa [flattenHistory] using hj.1
          · rw [e2]
            simpa [flattenHistory] using hj.2

/-- C1 (Stale-response guard): refuted by the code. In the part_001
ChatPage there is no session epoch or generation counter: starting a send
under file A with conversation cA, then switching to file B, which clears
the transcript, and then letting the pending send resolve, appends the
stale assistant reply to the transcript now associated with file B instead
of discarding it. The functional setter reads the cleared list and appends
to it. -/
theorem stale_send_appended_after_file_switch :
    (handleSendMessageSync sampleChat 100).2.isSome = true
    ∧ (handleFileChange (handleSendMessageSync sampleChat 100).1 "B").messages = []
    ∧ (handleFileChange (handleSendMessageSync sampleChat 100).1 "B").selectedFile
      = some "B"
    ∧ (resolveSendOk (handleFileChange (handleSendMessageSync sampleChat 100).1 "B")
        ⟨"stale answer", none⟩ 200).messages
      = [⟨"response-200", Role.assistant, "stale answer", 200⟩] := by
  decide

/-- C2 (At-most-one-in-flight send): in both chat implementations a second
invocation of the send handler issued while the first send is still
pending is rejected synchronously, leaving the state unchanged and issuing
no second request, so exactly one request is issued and the transcript
gains exactly one optimistic user message. In the part_001 ChatPage the
second call fails the empty-input guard because the first call cleared the
input; in the Sidebar ChatPage it fails the isLoading guard. -/
theorem sendMessage_single_flight (s : ChatState) (f c : String) (t1 t2 : Nat)
    (hin : ¬jsTrim s.input = "") (hf : s.selectedFile = some f)
    (hc : s.conversationId = some c)
    (sb : SBState) (u1 u2 : Nat)
    (hm : ¬jsTrim sb.message = "") (hl : sb.isLoading = false) :
    ((handleSendMessageSync s t1).2 = some ⟨s.input, f, c, s.embeddingProvider⟩
      ∧ (handleSendMessageSync s t1).1.messages
        = s.messages ++ [⟨toString t1, Role.user, s.input, t1⟩]
      ∧ handleSendMessageSync (handleSendMessageSync s t1).1 t2
        = ((handleSendMessageSync s t1).1, none))
    ∧ ((sbHandleSubmitSync sb u1).2 = some sb.message
      ∧ (sbHandleSubmitSync sb u1).1.messages
        = sb.messages ++ [⟨toString u1, Role.user, sb.message, u1⟩]
      ∧ sbHandleSubmitSync (sbHandleSubmitSync sb u1).1 u2
        = ((sbHandleSubmitSync sb u1).1, none)) := by
  refine ⟨⟨?_, ?_, ?_⟩, ⟨?_, ?_, ?_⟩⟩ <;>
    simp [handleSendMessageSync, sbHandleSubmitSync, hin, hf, hc, hm, hl,
      jsTrim_empty]

/-- C2 witness at concrete inputs. -/
theorem sendMessage_single_flight_witness :
    (¬jsTrim sampleChat.input = "" ∧ ¬jsTrim sampleSB.message = "")
    ∧ (handleSendMessageSync sampleChat 3).2 = some ⟨"hi", "f1", "c1", "local"⟩
    ∧ sbHandleSubmitSync (sbHandleSubmitSync sampleSB 5).1 6
      = ((sbHandleSubmitSync sampleSB 5).1, none) :=
  ⟨⟨by decide, by decide⟩,
    (sendMessage_single_flight sampleChat "f1" "c1" 3 4 (by decide) rfl rfl
      sampleSB 5 6 (by decide) rfl).1.1,
    (sendMessage_single_flight sampleChat "f1" "c1" 3 4 (by decide) rfl rfl
      sampleSB 5 6 (by decide) rfl).2.2.2⟩

/-- C3 counterexample: in the part_001 ChatPage a failed send leaves the
transcript with only the optimistic user message; no apology assistant
message is appended (the catch branch only shows a toast), so the claim as
stated fails on this implementation at this concrete input. -/
theorem send_failure_no_apology_in_part001 :
    (resolveSendErr (handleSendMessageSync sampleChat 3).1).messages
      = [⟨"3", Role.user, "hi", 3⟩]
    ∧ ∀ m ∈ (resolveSendErr (handleSendMessageSync sampleChat 3).1).messages,
        m.role = Role.user := by
  decide

/-- C3 (amended): failure path of a send, per implementation. In the
Sidebar ChatPage, with a conversation id held and the chat call failing,
the transcript gains exactly the optimistic user message followed by the
fixed apology assistant message, the user message is retained, the request
was issued once, and isLoading returns to false. In the part_001 ChatPage
the transcript gains exactly the optimistic user message and no assistant
message, the user message is likewise retained, and isLoading returns to
false. -/
theorem send_failure_transcript (sb : SBState) (c : String) (u1 u2 : Nat)
    (sr : Option String)
    (hm : ¬jsTrim sb.message = "") (hl : sb.isLoading = false)
    (hc : sb.currentConversationId = some c)
    (s : ChatState) (f c2 : String) (t1 : Nat)
    (hin : ¬jsTrim s.input = "") (hf : s.selectedFile = some f)
    (hc2 : s.conversationId = some c2) :
    ((sbHandleSubmitRest (sbHandleSubmitSync sb u1).1 sb.message sr none u2).1.messages
        = sb.messages ++ [⟨toString u1, Role.user, sb.message, u1⟩,
            ⟨toString u2 ++ "2", Role.assistant, sbErrorText, u2⟩]
      ∧ (sbHandleSubmitRest (sbHandleSubmitSync sb u1).1 sb.message sr none u2).1.isLoading
        = false
      ∧ (sbHandleSubmitRest (sbHandleSubmitSync sb u1).1 sb.message sr none u2).2
        = some ⟨sb.message, c⟩)
    ∧ ((resolveSendErr (handleSendMessageSync s t1).1).messages
        = s.messages ++ [⟨toString t1, Role.user, s.input, t1⟩]
      ∧ (resolveSendErr (handleSendMessageSync s t1).1).isLoading = false) := by
  refine ⟨⟨?_, ?_, ?_⟩, ?_, ?_⟩ <;>
    simp [sbHandleSubmitSync, sbHandleSubmitRest, sbResolveConvId, sbCatch,
      handleSendMessageSync, resolveSendErr, hm, hl, hc, hin, hf, hc2]

/-- C3 witness at concrete inputs. -/
theorem send_failure_transcript_witness :
    (¬jsTrim sampleSB.message = "" ∧ sampleSB.currentConversationId = some "c9")
    ∧ (sbHandleSubmitRest (sbHandleSubmitSync sampleSB 5).1 sampleSB.message
        none none 6).1.messages
      = sampleSB.messages ++ [⟨toString 5, Role.user, sampleSB.message, 5⟩,
          ⟨toString 6 ++ "2", Role.assistant, sbErrorText, 6⟩] :=
  ⟨⟨by decide, rfl⟩,
    (send_failure_transcript sampleSB "c9" 5 6 none (by decide) rfl rfl
      sampleChat "f1" "c1" 3 (by decide) rfl rfl).1.1⟩

/-- C4 (History Reconstructor ordering and grouping): the output of
fetchConversationsCore is a permutation of one Conversation per header,
each carrying exactly the records whose conversation_id matches it in the
order the backend returned them; it is sorted by started_at descending;
the sort is stable on input order for ties, since the subsequence of
output conversations at every fixed start time equals the corresponding
subsequence of the header list; and the concrete instance of the claim
holds. -/
theorem fetchConversations_orders_and_groups :
    (∀ (headers : List ConversationHeader) (records : List HistoryItem),
        (fetchConversationsCore headers records).Perm (headers.map (mkConv records))
      ∧ (fetchConversationsCore headers records).Pairwise
          (fun a b => b.started_at ≤ a.started_at)
      ∧ ∀ t, (fetchConversationsCore headers records).filter
            (fun c => c.started_at == t)
          = (headers.map (mkConv records)).filter (fun c => c.started_at == t))
    ∧ fetchConversationsCore [⟨"c1", 1⟩, ⟨"c2", 2⟩]
        [sampleRecord1, sampleRecord2, sampleRecord3]
      = [⟨"c2", 2, [sampleRecord2, sampleRecord3], false⟩,
         ⟨"c1", 1, [sampleRecord1], false⟩] := by
  refine ⟨fun headers records => ⟨?_, ?_, fun t => ?_⟩, by decide⟩
  · rw [fetchConversationsCore_eq_sort]
    exact sortByStartedAtDesc_perm _
  · rw [fetchConversationsCore_eq_sort]
    exact sortDescAux_pairwise _ [] (by simp)
  · rw [fetchConversationsCore_eq_sort]
    exact filter_sortByStartedAtDesc _ t

/-- C5: immediately after a file change to a different file id the
transcript is empty and conversationId is null, and both remain so across
any further user events, file changes or send attempts, occurring before
any conversation resolution completes: the send guard rejects while
conversationId is null, and a further file change clears again. -/
theorem selectFile_clears_until_resolution (s : ChatState) (fid : String)
    (hdiff : s.selectedFile ≠ some fid) (es : List UserEvent) :
    ((handleFileChange s fid).messages = []
      ∧ (handleFileChange s fid).conversationId = none)
    ∧ ((runUser (handleFileChange s fid) es).messages = []
      ∧ (runUser (handleFileChange s fid) es).conversationId = none) := by
  have key : ∀ (es : List UserEvent) (s0 : ChatState),
      s0.messages = [] → s0.conversationId = none →
      (runUser s0 es).messages = [] ∧ (runUser s0 es).conversationId = none := by
    intro es
    induction es with
    | nil => intro s0 h1 h2; exact ⟨h1, h2⟩
    | cons e es ih =>
        intro s0 h1 h2
        cases e with
        | fileChange g =>
            simp only [runUser, userStep]
            exact ih _ rfl rfl
        | sendAttempt n =>
            have hstep : (handleSendMessageSync s0 n).1 = s0 := by
              cases hsf : s0.selectedFile <;>
                simp [handleSendMessageSync, hsf, h2]
            simp only [runUser, userStep, hstep]
            exact ih _ h1 h2
  exact ⟨⟨rfl, rfl⟩, key es _ rfl rfl⟩

/-- C5 witness at concrete inputs. -/
theorem selectFile_clears_until_resolution_witness :
    sampleChat.selectedFile ≠ some "B"
    ∧ (((handleFileChange sampleChat "B").messages = []
        ∧ (handleFileChange sampleChat "B").conversationId = none)
      ∧ ((runUser (handleFileChange sampleChat "B")
            [UserEvent.sendAttempt 9, UserEvent.fileChange "C"]).messages = []
        ∧ (runUser (handleFileChange sampleChat "B")
            [UserEvent.sendAttempt 9, UserEvent.fileChange "C"]).conversationId
          = none)) :=
  ⟨by decide,
    selectFile_clears_until_resolution sampleChat "B" (by decide)
      [UserEvent.sendAttempt 9, UserEvent.fileChange "C"]⟩

/-- C6 counterexample: for an empty fetched record list the resumed
transcript has one message, the welcome back message, not 2 times 0, so
the claimed consequence that n records always yield 2n messages fails at
n equal to zero. -/
theorem resume_empty_history_not_double :
    ¬((resumeExplicit sampleChat "c1" [] 7).messages.length
        = 2 * ([] : List ChatHistoryRecord).length) := by
  decide

/-- C6 (amended): for a successful explicit resume whose fetched record
list is nonempty, the transcript equals the flattening of the records:
record i, zero based, contributes the messages at positions 2i and 2i+1, a
user message with its question and an assistant message with its response,
both with the record timestamp, so n records yield exactly 2n messages
preserving record order. An empty fetch instead yields the single welcome
back message. -/
theorem resume_flattening (s : ChatState) (f cid : String) (now : Nat)
    (history : List ChatHistoryRecord)
    (hf : s.selectedFile = some f) (hne : history ≠ []) :
    (resumeExplicit s cid history now).messages = flattenHistory now history
    ∧ (flattenHistory now history).length = 2 * history.length
    ∧ ∀ i qr, history[i]? = some qr →
        (flattenHistory now history)[2 * i]?
          = some ⟨"user-" ++ toString now, Role.user, qr.question, qr.timestamp⟩
        ∧ (flattenHistory now history)[2 * i + 1]?
          = some ⟨"assistant-" ++ toString now, Role.assistant, qr.response,
              qr.timestamp⟩ := by
  refine ⟨?_, flattenHistory_length now history, flattenHistory_get now history⟩
  have hlen : ¬(flattenHistory now history).length = 0 := by
    have hnil := flattenHistory_ne_nil now history hne
    simpa [List.length_eq_zero] using hnil
  simp [resumeExplicit, resolveLoadOk, hf, hlen]

/-- C6 witness at concrete inputs. -/
theorem resume_flattening_witness :
    (sampleChat.selectedFile = some "f1"
      ∧ [sampleHistoryRecord] ≠ ([] : List ChatHistoryRecord))
    ∧ (resumeExplicit sampleChat "c1" [sampleHistoryRecord] 7).messages
      = flattenHistory 7 [sampleHistoryRecord] :=
  ⟨⟨rfl, by decide⟩,
    (resume_flattening sampleChat "f1" "c1" 7 [sampleHistoryRecord] rfl
      (by decide)).1⟩

/-- C7 counterexample: in the part_001 ChatPage a send invoked with a
selected file, nonempty trimmed text and a null conversationId is rejected
synchronously; the state is unchanged and no request is issued, so the
manager does not transparently resume or start first. -/
theorem part001_send_rejected_without_conversation :
    handleSendMessageSync sampleChatNoConv 3 = (sampleChatNoConv, none)
    ∧ (handleSendMessageSync sampleChatNoConv 3).1.messages = [] := by
  decide

/-- C7 (amended): only the Sidebar ChatPage implements the transparent
start: when no conversation id is held, handleSubmit first consumes the
start-conversation reply, stores it, and issues the chat request carrying
exactly the id obtained from it together with the captured question; the
part_001 ChatPage instead rejects such a send synchronously. -/
theorem sidebar_send_starts_conversation (sb : SBState) (u1 u2 : Nat)
    (cid resp : String)
    (hm : ¬jsTrim sb.message = "") (hl : sb.isLoading = false)
    (hc : sb.currentConversationId = none) :
    (sbHandleSubmitRest (sbHandleSubmitSync sb u1).1 sb.message (some cid)
        (some resp) u2).2
      = some ⟨sb.message, cid⟩
    ∧ (sbHandleSubmitRest (sbHandleSubmitSync sb u1).1 sb.message (some cid)
        (some resp) u2).1.currentConversationId
      = some cid
    ∧ (sbHandleSubmitRest (sbHandleSubmitSync sb u1).1 sb.message (some cid)
        (some resp) u2).1.messages
      = sb.messages ++ [⟨toString u1, Role.user, sb.message, u1⟩,
          ⟨toString u2 ++ "1", Role.assistant, resp, u2⟩] := by
  refine ⟨?_, ?_, ?_⟩ <;>
    simp [sbHandleSubmitSync, sbHandleSubmitRest, sbResolveConvId, hm, hl, hc]

/-- C7 witness at concrete inputs. -/
theorem sidebar_send_starts_conversation_witness :
    (¬jsTrim sampleSBNoConv.message = ""
      ∧ sampleSBNoConv.currentConversationId = none)
    ∧ (sbHandleSubmitRest (sbHandleSubmitSync sampleSBNoConv 5).1
        sampleSBNoConv.message (some "cNew") (some "resp") 6).2
      = some ⟨sampleSBNoConv.message, "cNew"⟩ :=
  ⟨⟨by decide, rfl⟩,
    (sidebar_send_starts_conversation sampleSBNoConv 5 6 "cNew" "resp"
      (by decide) rfl rfl).1⟩

/-- C8 (Orphan records): a history record whose conversation_id matches no
conversation header is excluded from the message group of every output
conversation. fetchConversationsCore is a total function, so the
computation always completes without raising. -/
theorem orphan_records_excluded (headers : List ConversationHeader)
    (records : List HistoryItem) (r : HistoryItem)
    (hr : r ∈ records)
    (horphan : ∀ hd ∈ headers, ¬hd.conversation_id = r.conversation_id) :
    ∀ c ∈ fetchConversationsCore headers records, r ∉ c.messages := by
  intro c hc hmem
  rw [fetchConversationsCore_eq_sort] at hc
  have hc2 : c ∈ headers.map (mkConv records) :=
    (sortByStartedAtDesc_perm (headers.map (mkConv records))).mem_iff.mp hc
  rcases List.mem_map.mp hc2 with ⟨hd, hdmem, rfl⟩
  simp only [mkConv] at hmem
  have hfil := (List.mem_filter.mp hmem).2
  exact horphan hd hdmem (eq_of_beq hfil).symm

/-- C8 witness at concrete inputs. -/
theorem orphan_records_excluded_witness :
    (sampleOrphan ∈ [sampleOrphan]
      ∧ ∀ hd ∈ [(⟨"c1", 1⟩ : ConversationHeader)],
          ¬hd.conversation_id = sampleOrphan.conversation_id)
    ∧ ∀ c ∈ fetchConversationsCore [⟨"c1", 1⟩] [sampleOrphan],
        sampleOrphan ∉ c.messages :=
  ⟨⟨by decide, by decide⟩,
    orphan_records_excluded [⟨"c1", 1⟩] [sampleOrphan] sampleOrphan
      (by decide) (by decide)⟩

/-- C9 (frame property of a successful send with a held conversation id):
in the part_001 ChatPage, selectedFile and conversationId are unchanged,
the transcript gains exactly the optimistic user message and the assistant
reply, the pending flag returns to false, and embeddingProvider is either
unchanged or overwritten by the value the server returned; in the Sidebar
ChatPage, currentConversationId is unchanged, the transcript gains exactly
the two messages, the pending flag returns to false, and the request
carried the held conversation id. -/
theorem send_success_frame (s : ChatState) (f c : String) (t1 t2 : Nat)
    (resp : ChatResponse)
    (hin : ¬jsTrim s.input = "") (hf : s.selectedFile = some f)
    (hc : s.conversationId = some c)
    (sb : SBState) (c3 r : String) (u1 u2 : Nat) (sr : Option String)
    (hm : ¬jsTrim sb.message = "") (hl : sb.isLoading = false)
    (hc3 : sb.currentConversationId = some c3) :
    ((resolveSendOk (handleSendMessageSync s t1).1 resp t2).selectedFile = some f
      ∧ (resolveSendOk (handleSendMessageSync s t1).1 resp t2).conversationId
        = some c
      ∧ (resolveSendOk (handleSendMessageSync s t1).1 resp t2).messages
        = s.messages ++ [⟨toString t1, Role.user, s.input, t1⟩,
            ⟨"response-" ++ toString t2, Role.assistant, resp.response, t2⟩]
      ∧ (resolveSendOk (handleSendMessageSync s t1).1 resp t2).isLoading = false
      ∧ (resolveSendOk (handleSendMessageSync s t1).1 resp t2).embeddingProvider
        = resp.embedding_provider.getD s.embeddingProvider)
    ∧ ((sbHandleSubmitRest (sbHandleSubmitSync sb u1).1 sb.message sr
          (some r) u2).1.currentConversationId
        = some c3
      ∧ (sbHandleSubmitRest (sbHandleSubmitSync sb u1).1 sb.message sr
          (some r) u2).1.messages
        = sb.messages ++ [⟨toString u1, Role.user, sb.message, u1⟩,
            ⟨toString u2 ++ "1", Role.assistant, r, u2⟩]
      ∧ (sbHandleSubmitRest (sbHandleSubmitSync sb u1).1 sb.message sr
          (some r) u2).1.isLoading
        = false
      ∧ (sbHandleSubmitRest (sbHandleSubmitSync sb u1).1 sb.message sr
          (some r) u2).2
        = some ⟨sb.message, c3⟩) := by
  obtain ⟨rr, rep⟩ := resp
  cases rep <;>
    (refine ⟨⟨?_, ?_, ?_, ?_, ?_⟩, ⟨?_, ?_, ?_, ?_⟩⟩ <;>
      simp [handleSendMessageSync, resolveSendOk, sbHandleSubmitSync,
        sbHandleSubmitRest, sbResolveConvId, hin, hf, hc, hm, hl, hc3])

/-- C9 witness at concrete inputs. -/
theorem send_success_frame_witness :
    (¬jsTrim sampleChat.input = "" ∧ ¬jsTrim sampleSB.message = "")
    ∧ (resolveSendOk (handleSendMessageSync sampleChat 3).1
        ⟨"ans", some "openai"⟩ 4).conversationId
      = some "c1" :=
  ⟨⟨by decide, by decide⟩,
    (send_success_frame sampleChat "f1" "c1" 3 4 ⟨"ans", some "openai"⟩
      (by decide) rfl rfl sampleSB "c9" "ans2" 5 6 none
      (by decide) rfl rfl).1.2.1⟩

/-- C10: resuming an existing conversation whose fetched history is empty
yields a transcript consisting of exactly the synthesized welcome back
assistant message, so a successfully resumed session never shows an empty
transcript; the message exists only in local state, no backend operation
carries it. -/
theorem resume_empty_history_welcome_back (s : ChatState) (f cid : String)
    (now : Nat) (hf : s.selectedFile = some f) :
    (resumeExplicit s cid [] now).messages
      = [welcomeBackMessage s.selectedFileName now]
    ∧ (resumeExplicit s cid [] now).messages ≠ []
    ∧ (welcomeBackMessage s.selectedFileName now).role = Role.assistant := by
  refine ⟨?_, ?_, rfl⟩ <;>
    simp [resumeExplicit, resolveLoadOk, flattenHistory, hf]

/-- C10 witness at concrete inputs. -/
theorem resume_empty_history_welcome_back_witness :
    sampleChat.selectedFile = some "f1"
    ∧ (resumeExplicit sampleChat "c1" [] 7).messages
      = [welcomeBackMessage sampleChat.selectedFileName 7] :=
  ⟨rfl, (resume_empty_history_welcome_back sampleChat "f1" "c1" 7 rfl).1⟩
